import Mathlib

/-!
Verification of the BLAKE2sp tree construction implemented in
src/c_src/blake2sp.c (the NIF function blake2sp_hash and its helpers
blake2sp_init_leaf and blake2sp_init_root).

Shallow embedding notes:
* Bytes are Nat values; byte buffers are List Nat.
* The blake2s primitive itself (blake2s.c, blake2-impl.h) is not part of the
  sources; following the specification it is treated as an opaque primitive:
  a state records its parameter block, the exact sequence of update calls
  (each call with the bytes it absorbed), and the last-node flag.  The
  finalize step returns exactly the requested number of bytes, computed
  deterministically from the state.
* The C code copies a fixed 8 bytes out of the caller salt and
  personalization buffers whatever their size; the bytes of memory that
  follow each buffer are therefore part of the observable behaviour and are
  modelled explicitly (saltTail, personalTail).
* uint8_t function parameters are reduced mod 256 at the call boundary.
-/

/-- store32 from blake2-impl.h: a value truncated to 32 bits. -/
def store32 (x : Nat) : Nat := x % 2 ^ 32

/-- store48 from blake2-impl.h: a value truncated to 48 bits. -/
def store48 (x : Nat) : Nat := x % 2 ^ 48

/-- The blake2s parameter block (blake2s_param from blake2.h).  Multi-byte
integer fields are Nat values written through store32 and store48; the salt
and personal fields are 8-byte lists (BLAKE2S_SALTBYTES = BLAKE2S_PERSONALBYTES = 8). -/
structure blake2s_param where
  digest_length : Nat
  key_length : Nat
  fanout : Nat
  depth : Nat
  leaf_length : Nat
  node_offset : Nat
  node_depth : Nat
  inner_length : Nat
  salt : List Nat
  personal : List Nat
deriving DecidableEq, Repr

/-- Modelled from the spec: the state of the opaque blake2s primitive
(blake2s.c is outside the sources).  Per the required primitive interface it
records the parameter block it was initialized from, the order-sensitive
sequence of update calls with the bytes each absorbed, and the last-node
flag settable before finalize. -/
structure blake2s_state where
  param : blake2s_param
  updates : List (List Nat)
  last_node : Bool
deriving DecidableEq, Repr

/-- Modelled from the spec: init(params) -> state, constructing a fresh hash
state from a parameter block (blake2s_init_param in blake2s.c, missing from
the sources).  The reference function always succeeds on the parameter
blocks this construction builds. -/
def blake2s_init_param (P : blake2s_param) : blake2s_state :=
  { param := P, updates := [], last_node := false }

/-- Modelled from the spec: update(state, bytes) absorbs bytes; may be called
multiple times; order-sensitive (blake2s_update in blake2s.c, missing from
the sources). -/
def blake2s_update (S : blake2s_state) (d : List Nat) : blake2s_state :=
  { S with updates := S.updates ++ [d] }

/-- A deterministic numeric code of a byte list, used to model the opaque
compression inside finalize. -/
def byteCode (l : List Nat) : Nat :=
  l.foldl (fun a b => a * 331 + b % 256 + 1) 7

/-- A deterministic numeric code of a whole state: parameter block, absorbed
trace and last-node flag all enter the code. -/
def stateCode (S : blake2s_state) : Nat :=
  byteCode (S.param.salt ++ S.param.personal ++
      [S.param.digest_length, S.param.key_length, S.param.fanout, S.param.depth,
       S.param.leaf_length, S.param.node_offset, S.param.node_depth,
       S.param.inner_length, cond S.last_node 1 0]) +
    S.updates.foldl (fun a u => a * 65537 + byteCode u) 0

/-- Modelled from the spec: final(state, outlen) -> bytes[outlen]; finalizes
the state and returns exactly outlen bytes, a deterministic function of the
parameters and the absorbed trace, supporting outlen at most the native size
(blake2s_final in blake2s.c, missing from the sources). -/
def blake2s_final (S : blake2s_state) (outlen : Nat) : List Nat :=
  (List.range outlen).map fun j => (stateCode S + j) % 256

/-- Modelled from the spec: secure_zero_memory from blake2-impl.h (missing
from the sources), a non-elidable overwrite of the whole buffer with zeros. -/
def secure_zero_memory (buf : List Nat) : List Nat :=
  List.replicate buf.length 0

/-- blake2sp_init_leaf from the source: builds the leaf parameter block and
initializes a state from it.  salt and personal are the caller buffers
(whose lengths are the binary sizes saltlen and personallen); saltTail and
personalTail are the bytes of memory that follow each buffer, read by the
fixed-width memcpy when the buffer is shorter than 8 bytes. -/
def blake2sp_init_leaf (outlen keylen offset : Nat)
    (salt saltTail personal personalTail : List Nat)
    (saltlen personallen : Nat) : blake2s_state :=
  blake2s_init_param
    { digest_length := outlen
      key_length := keylen
      fanout := 8            -- PARALLELISM_DEGREE
      depth := 2
      leaf_length := store32 0
      node_offset := store48 offset
      node_depth := 0
      inner_length := 32     -- BLAKE2S_OUTBYTES
      salt := if saltlen ≠ 0 then (salt ++ saltTail).take 8 else List.replicate 8 0
      personal := if personallen ≠ 0 then (personal ++ personalTail).take 8
                  else List.replicate 8 0 }

/-- blake2sp_init_root from the source: builds the root parameter block
(node offset 0, node depth 1) and initializes a state from it. -/
def blake2sp_init_root (outlen keylen : Nat)
    (salt saltTail personal personalTail : List Nat)
    (saltlen personallen : Nat) : blake2s_state :=
  blake2s_init_param
    { digest_length := outlen
      key_length := keylen
      fanout := 8            -- PARALLELISM_DEGREE
      depth := 2
      leaf_length := store32 0
      node_offset := store48 0
      node_depth := 1
      inner_length := 32     -- BLAKE2S_OUTBYTES
      salt := if saltlen ≠ 0 then (salt ++ saltTail).take 8 else List.replicate 8 0
      personal := if personallen ≠ 0 then (personal ++ personalTail).take 8
                  else List.replicate 8 0 }

/-- The arguments of one blake2sp_hash invocation, after the binding layer
has produced the binaries: input bytes, key bytes, requested output length,
salt and personalization buffers.  saltTail and personalTail model the bytes
of memory that follow the salt and personalization buffers. -/
structure HashArgs where
  input : List Nat
  key : List Nat
  outlen : Nat
  salt : List Nat
  saltTail : List Nat
  personal : List Nat
  personalTail : List Nat
deriving Repr

/-- The per-lane input loop of blake2sp_hash (source lines 130 to 146) for
lane i: starting with the read cursor at byte offset i*64 and the remaining
counter at the full input length, absorb one 64-byte block and advance by
8*64 bytes while at least 8*64 bytes remain; then, if the remainder exceeds
i*64, absorb one final update of min(remainder - i*64, 64) bytes. -/
def laneLoop (i : Nat) (input : List Nat) (off inlen : Nat) : List (List Nat) :=
  if h : 8 * 64 ≤ inlen then
    (input.drop off).take 64 :: laneLoop i input (off + 8 * 64) (inlen - 8 * 64)
  else if i * 64 < inlen then
    [(input.drop off).take (min (inlen - i * 64) 64)]
  else []
termination_by inlen
decreasing_by omega

/-- The full sequence of input updates lane i performs, as in the source:
the cursor starts at input.data + i * BLAKE2S_BLOCKBYTES and the remaining
counter at input.size. -/
def laneAbsorb (input : List Nat) (i : Nat) : List (List Nat) :=
  laneLoop i input (i * 64) input.length

/-- Leaf state of lane i right after the initialization loop of
blake2sp_hash (source lines 101 to 104). -/
def leafInit (a : HashArgs) (i : Nat) : blake2s_state :=
  blake2sp_init_leaf (a.outlen % 256) (a.key.length % 256) i
    a.salt a.saltTail a.personal a.personalTail
    (a.salt.length % 256) (a.personal.length % 256)

/-- Leaf states after the statement S[PARALLELISM_DEGREE - 1]->last_node = 1
(source line 106): only lane 7 is marked. -/
def leafMarked (a : HashArgs) (i : Nat) : blake2s_state :=
  if i = 7 then { leafInit a i with last_node := true } else leafInit a i

/-- The key block buffer after memset(block, 0, 64) and
memcpy(block, key.data, key.size) (source lines 110 to 112): the key bytes
left-justified over a zeroed 64-byte buffer. -/
def key_block_loaded (key : List Nat) : List Nat :=
  key ++ (List.replicate 64 0).drop key.length

/-- The key block buffer after the secure_zero_memory call that burns the
key from the stack (source line 117). -/
def key_block_burned (key : List Nat) : List Nat :=
  secure_zero_memory (key_block_loaded key)

/-- Leaf states after the keyed section (source lines 108 to 118): when a
key is present every lane absorbs the loaded key block as one full-block
update; otherwise the states are unchanged. -/
def leafKeyed (a : HashArgs) (i : Nat) : blake2s_state :=
  if 0 < a.key.length then blake2s_update (leafMarked a i) (key_block_loaded a.key)
  else leafMarked a i

/-- Leaf state of lane i at its finalization: after absorbing the input
updates of the per-lane loop. -/
def leafAbsorbed (a : HashArgs) (i : Nat) : blake2s_state :=
  (laneAbsorb a.input i).foldl blake2s_update (leafKeyed a i)

/-- The digest of lane i: blake2s_final(S[i], hash[i], BLAKE2S_OUTBYTES)
(source line 148), always the native 32 bytes. -/
def laneDigest (a : HashArgs) (i : Nat) : List Nat :=
  blake2s_final (leafAbsorbed a i) 32

/-- Root state right after blake2sp_init_root (source line 151). -/
def rootInit (a : HashArgs) : blake2s_state :=
  blake2sp_init_root (a.outlen % 256) (a.key.length % 256)
    a.salt a.saltTail a.personal a.personalTail
    (a.salt.length % 256) (a.personal.length % 256)

/-- Root state after FS->last_node = 1 (source line 154). -/
def rootMarked (a : HashArgs) : blake2s_state :=
  { rootInit a with last_node := true }

/-- Root state at its finalization: after absorbing the 8 lane digests in
lane-index order, one update per lane (source lines 156 to 157). -/
def rootAbsorbed (a : HashArgs) : blake2s_state :=
  (List.range 8).foldl (fun S i => blake2s_update S (laneDigest a i)) (rootMarked a)

/-- blake2sp_hash from the source: bounds checks on outlen and key size
(source lines 98 to 99, returning the error value -1, modelled as none),
then the whole tree computation, returning the outlen digest bytes that the
NIF hands back as a list (source lines 159 to 165). -/
def blake2sp_hash (a : HashArgs) : Option (List Nat) :=
  if a.outlen = 0 ∨ 32 < a.outlen then none
  else if 32 < a.key.length then none
  else some (blake2s_final (rootAbsorbed a) a.outlen)

/-- Transcription of the lane-partitioning sentence of the specification,
for comparison with laneAbsorb.  With L the input length, B = 64 the block
size and N = 8 the lane count (so N*B = 512): lane i owns the full B-byte
blocks at byte offsets i*B, i*B + N*B, i*B + 2*N*B, ... for as long as at
least N*B bytes remain, and then, with R = L mod N*B, one final update of
min(B, R - i*B) bytes iff R > i*B. -/
def laneStrideSpec (input : List Nat) (i : Nat) : List (List Nat) :=
  ((List.range (input.length / 512)).map fun j =>
      (input.drop (i * 64 + j * 512)).take 64) ++
    if i * 64 < input.length % 512 then
      [(input.drop (i * 64 + input.length / 512 * 512)).take
          (min 64 (input.length % 512 - i * 64))]
    else []

/-- Folding blake2s_update over a list of byte strings appends that list to
the update trace and changes nothing else. -/
theorem foldl_blake2s_update (l : List (List Nat)) (S : blake2s_state) :
    l.foldl blake2s_update S = { S with updates := S.updates ++ l } := by
  induction l generalizing S with
  | nil => simp
  | cons x xs ih =>
    simp [List.foldl_cons, blake2s_update, ih, List.append_assoc]

/-- Folding updates drawn through a function g over an index list appends
the mapped list to the update trace and changes nothing else. -/
theorem foldl_blake2s_update_map (g : Nat → List Nat) (l : List Nat) (S : blake2s_state) :
    l.foldl (fun T n => blake2s_update T (g n)) S
      = { S with updates := S.updates ++ l.map g } := by
  induction l generalizing S with
  | nil => simp
  | cons x xs ih =>
    rw [List.foldl_cons, ih]
    simp [blake2s_update, List.append_assoc]

/-- Closed form of the per-lane input loop: with the cursor at off and
inlen bytes remaining, the loop performs inlen / 512 full 64-byte updates
at offsets off, off + 512, off + 2*512, ..., followed by the conditional
tail update of source line 141. -/
theorem laneLoop_closed (i : Nat) (input : List Nat) (inlen : Nat) :
    ∀ off, laneLoop i input off inlen =
      ((List.range (inlen / 512)).map fun j => (input.drop (off + j * 512)).take 64) ++
        if i * 64 < inlen % 512 then
          [(input.drop (off + inlen / 512 * 512)).take (min (inlen % 512 - i * 64) 64)]
        else [] := by
  induction inlen using Nat.strong_induction_on with
  | _ inlen ih =>
    intro off
    rw [laneLoop]
    by_cases h : 8 * 64 ≤ inlen
    · rw [dif_pos h, ih (inlen - 8 * 64) (by omega) (off + 8 * 64)]
      have hdiv : inlen / 512 = (inlen - 8 * 64) / 512 + 1 := by omega
      have hmod : inlen % 512 = (inlen - 8 * 64) % 512 := by omega
      rw [hdiv, hmod]
      have hoff : off + ((inlen - 8 * 64) / 512 + 1) * 512
          = off + 8 * 64 + (inlen - 8 * 64) / 512 * 512 := by omega
      rw [hoff, List.range_succ_eq_map, List.map_cons, List.map_map]
      simp only [Nat.zero_mul, Nat.add_zero, List.cons_append]
      congr 1
      congr 1
      apply List.map_congr_left
      intro j hj
      simp only [Function.comp_apply]
      have hjoff : off + Nat.succ j * 512 = off + 8 * 64 + j * 512 := by omega
      rw [hjoff]
    · rw [dif_neg h]
      have h1 : inlen / 512 = 0 := by omega
      have h2 : inlen % 512 = inlen := by omega
      rw [h1, h2]
      simp only [List.range_zero, List.map_nil, List.nil_append, Nat.zero_mul,
        Nat.add_zero]

/-- The marking step touches no update trace: every marked leaf still has an
empty trace. -/
theorem leafMarked_updates (a : HashArgs) (i : Nat) : (leafMarked a i).updates = [] := by
  by_cases hi : i = 7 <;>
    simp [leafMarked, hi, leafInit, blake2sp_init_leaf, blake2s_init_param]

/-- The marking step keeps every parameter block. -/
theorem leafMarked_param (a : HashArgs) (i : Nat) :
    (leafMarked a i).param = (leafInit a i).param := by
  by_cases hi : i = 7 <;> simp [leafMarked, hi]

/-- After source line 106 the last-node flag of lane i holds exactly for
lane 7. -/
theorem leafMarked_last (a : HashArgs) (i : Nat) :
    (leafMarked a i).last_node = decide (i = 7) := by
  by_cases hi : i = 7 <;>
    simp [leafMarked, hi, leafInit, blake2sp_init_leaf, blake2s_init_param]

/-- After the keyed section the trace of lane i is one loaded key block when
a key is present and empty otherwise. -/
theorem leafKeyed_updates (a : HashArgs) (i : Nat) :
    (leafKeyed a i).updates
      = if 0 < a.key.length then [key_block_loaded a.key] else [] := by
  by_cases hk : 0 < a.key.length <;>
    simp [leafKeyed, hk, blake2s_update, leafMarked_updates]

/-- The keyed section keeps every parameter block. -/
theorem leafKeyed_param (a : HashArgs) (i : Nat) :
    (leafKeyed a i).param = (leafInit a i).param := by
  by_cases hk : 0 < a.key.length <;>
    simp [leafKeyed, hk, blake2s_update, leafMarked_param]

/-- The keyed section keeps every last-node flag. -/
theorem leafKeyed_last (a : HashArgs) (i : Nat) :
    (leafKeyed a i).last_node = decide (i = 7) := by
  by_cases hk : 0 < a.key.length <;>
    simp [leafKeyed, hk, blake2s_update, leafMarked_last]

/-- The trace of lane i at finalization: the optional key block followed by
the per-lane input updates. -/
theorem leafAbsorbed_updates (a : HashArgs) (i : Nat) :
    (leafAbsorbed a i).updates
      = (if 0 < a.key.length then [key_block_loaded a.key] else [])
          ++ laneAbsorb a.input i := by
  rw [leafAbsorbed, foldl_blake2s_update]
  simp [leafKeyed_updates]

/-- The input loop keeps every parameter block. -/
theorem leafAbsorbed_param (a : HashArgs) (i : Nat) :
    (leafAbsorbed a i).param = (leafInit a i).param := by
  rw [leafAbsorbed, foldl_blake2s_update]
  simp [leafKeyed_param]

/-- The input loop keeps every last-node flag. -/
theorem leafAbsorbed_last (a : HashArgs) (i : Nat) :
    (leafAbsorbed a i).last_node = decide (i = 7) := by
  rw [leafAbsorbed, foldl_blake2s_update]
  simp [leafKeyed_last]

/-- The trace of the root at finalization: the 8 lane digests in lane-index
order, one update each. -/
theorem rootAbsorbed_updates (a : HashArgs) :
    (rootAbsorbed a).updates = (List.range 8).map (laneDigest a) := by
  rw [rootAbsorbed, foldl_blake2s_update_map]
  simp [rootMarked, rootInit, blake2sp_init_root, blake2s_init_param]

/-- The root digest-absorbing loop keeps the parameter block. -/
theorem rootAbsorbed_param (a : HashArgs) :
    (rootAbsorbed a).param = (rootInit a).param := by
  rw [rootAbsorbed, foldl_blake2s_update_map]
  simp [rootMarked]

/-- The root digest-absorbing loop keeps the last-node flag set at source
line 154. -/
theorem rootAbsorbed_last (a : HashArgs) : (rootAbsorbed a).last_node = true := by
  rw [rootAbsorbed, foldl_blake2s_update_map]
  simp [rootMarked]

/-- Finalization returns exactly the requested number of bytes. -/
theorem blake2s_final_length (S : blake2s_state) (n : Nat) :
    (blake2s_final S n).length = n := by
  simp [blake2s_final]

/-- Dropping from a zero-filled buffer leaves a zero-filled buffer. -/
theorem drop_replicate_zero (n k : Nat) :
    (List.replicate n (0 : Nat)).drop k = List.replicate (n - k) 0 := by
  induction n generalizing k with
  | zero => simp
  | succ n ih =>
    cases k with
    | zero => simp
    | succ k => simp [List.replicate_succ, ih]

/-- C1: for every input and every lane i (0 <= i <= 7), the per-lane loop of
blake2sp_hash absorbs exactly the block-strided slice of the input: the full
64-byte blocks at byte offsets i*64, i*64 + 512, i*64 + 2*512, ... for as
long as at least 512 bytes remain, and then, with R = L mod 512, a single
final update of min(64, R - i*64) bytes iff R > i*64; a lane whose tail
offset is not within the remaining bytes absorbs zero tail bytes and still
finalizes normally to a 32-byte digest. -/
theorem lane_partition_is_block_strided (input : List Nat) (i : Nat) (h : i < 8) :
    laneAbsorb input i = laneStrideSpec input i ∧
    ∀ a : HashArgs, (laneDigest a i).length = 32 := by
  constructor
  · unfold laneAbsorb laneStrideSpec
    rw [laneLoop_closed, Nat.min_comm (input.length % 512 - i * 64) 64]
  · intro a
    exact blake2s_final_length _ _

/-- Witness for C1 at input = range 700, lane 3. -/
theorem lane_partition_is_block_strided_witness :
    3 < 8 ∧
      (laneAbsorb (List.range 700) 3 = laneStrideSpec (List.range 700) 3 ∧
        ∀ a : HashArgs, (laneDigest a 3).length = 32) :=
  ⟨by decide, lane_partition_is_block_strided (List.range 700) 3 (by decide)⟩

/-- C2: in every valid invocation, every leaf parameter block has
digest_length = outlen, key_length = keylen, fanout = 8, depth = 2,
leaf_length = 0, inner_length = 32, node_offset = its lane index and
node_depth = 0; the root parameter block has the same common fields (salt
and personal included) with node_offset = 0 and node_depth = 1. -/
theorem leaf_root_param_fields (a : HashArgs) (i : Nat) (hi : i < 8)
    (ho1 : 1 ≤ a.outlen) (ho2 : a.outlen ≤ 32) (hk : a.key.length ≤ 32) :
    ((leafInit a i).param.digest_length = a.outlen ∧
     (leafInit a i).param.key_length = a.key.length ∧
     (leafInit a i).param.fanout = 8 ∧
     (leafInit a i).param.depth = 2 ∧
     (leafInit a i).param.leaf_length = 0 ∧
     (leafInit a i).param.inner_length = 32 ∧
     (leafInit a i).param.node_offset = i ∧
     (leafInit a i).param.node_depth = 0) ∧
    ((rootInit a).param.digest_length = a.outlen ∧
     (rootInit a).param.key_length = a.key.length ∧
     (rootInit a).param.fanout = 8 ∧
     (rootInit a).param.depth = 2 ∧
     (rootInit a).param.leaf_length = 0 ∧
     (rootInit a).param.inner_length = 32 ∧
     (rootInit a).param.salt = (leafInit a i).param.salt ∧
     (rootInit a).param.personal = (leafInit a i).param.personal ∧
     (rootInit a).param.node_offset = 0 ∧
     (rootInit a).param.node_depth = 1) := by
  simp [leafInit, rootInit, blake2sp_init_leaf, blake2sp_init_root,
    blake2s_init_param, store32, store48]
  omega

/-- Witness for C2 at the empty-input, empty-key invocation with outlen 32,
lane 0. -/
theorem leaf_root_param_fields_witness :
    (0 < 8 ∧ 1 ≤ 32 ∧ (32 : Nat) ≤ 32 ∧ ([] : List Nat).length ≤ 32) ∧
    (((leafInit ⟨[], [], 32, [], [], [], []⟩ 0).param.digest_length = 32 ∧
      (leafInit ⟨[], [], 32, [], [], [], []⟩ 0).param.key_length = ([] : List Nat).length ∧
      (leafInit ⟨[], [], 32, [], [], [], []⟩ 0).param.fanout = 8 ∧
      (leafInit ⟨[], [], 32, [], [], [], []⟩ 0).param.depth = 2 ∧
      (leafInit ⟨[], [], 32, [], [], [], []⟩ 0).param.leaf_length = 0 ∧
      (leafInit ⟨[], [], 32, [], [], [], []⟩ 0).param.inner_length = 32 ∧
      (leafInit ⟨[], [], 32, [], [], [], []⟩ 0).param.node_offset = 0 ∧
      (leafInit ⟨[], [], 32, [], [], [], []⟩ 0).param.node_depth = 0) ∧
     ((rootInit ⟨[], [], 32, [], [], [], []⟩).param.digest_length = 32 ∧
      (rootInit ⟨[], [], 32, [], [], [], []⟩).param.key_length = ([] : List Nat).length ∧
      (rootInit ⟨[], [], 32, [], [], [], []⟩).param.fanout = 8 ∧
      (rootInit ⟨[], [], 32, [], [], [], []⟩).param.depth = 2 ∧
      (rootInit ⟨[], [], 32, [], [], [], []⟩).param.leaf_length = 0 ∧
      (rootInit ⟨[], [], 32, [], [], [], []⟩).param.inner_length = 32 ∧
      (rootInit ⟨[], [], 32, [], [], [], []⟩).param.salt
          = (leafInit ⟨[], [], 32, [], [], [], []⟩ 0).param.salt ∧
      (rootInit ⟨[], [], 32, [], [], [], []⟩).param.personal
          = (leafInit ⟨[], [], 32, [], [], [], []⟩ 0).param.personal ∧
      (rootInit ⟨[], [], 32, [], [], [], []⟩).param.node_offset = 0 ∧
      (rootInit ⟨[], [], 32, [], [], [], []⟩).param.node_depth = 1)) :=
  ⟨⟨by decide, by decide, by decide, by decide⟩,
    leaf_root_param_fields ⟨[], [], 32, [], [], [], []⟩ 0
      (by decide) (by decide) (by decide) (by decide)⟩

/-- C3: in every invocation, exactly one leaf state, lane 7, has its
last-node flag set at its finalization, independent of whether that lane
absorbed any input bytes, and the root state also has its last-node flag
set at its finalization; no other leaf state is so flagged. -/
theorem last_node_exactly_lane7_and_root (a : HashArgs) (i : Nat) :
    ((leafAbsorbed a i).last_node = true ↔ i = 7) ∧
    (rootAbsorbed a).last_node = true := by
  constructor
  · rw [leafAbsorbed_last]
    simp
  · exact rootAbsorbed_last a

/-- C4: in every valid invocation each leaf finalizes to exactly 32 bytes,
the root state absorbs the 8 lane digests in strict lane-index order as 8
separate 32-byte updates, and the call returns exactly outlen bytes. -/
theorem valid_call_returns_outlen_bytes (a : HashArgs)
    (ho1 : 1 ≤ a.outlen) (ho2 : a.outlen ≤ 32) (hk : a.key.length ≤ 32) :
    (∀ i, (laneDigest a i).length = 32) ∧
    (rootAbsorbed a).updates = (List.range 8).map (laneDigest a) ∧
    blake2sp_hash a = some (blake2s_final (rootAbsorbed a) a.outlen) ∧
    (blake2s_final (rootAbsorbed a) a.outlen).length = a.outlen := by
  refine ⟨fun i => blake2s_final_length _ _, rootAbsorbed_updates a, ?_,
    blake2s_final_length _ _⟩
  have h1 : ¬(a.outlen = 0 ∨ 32 < a.outlen) := by omega
  have h2 : ¬(32 < a.key.length) := by omega
  simp [blake2sp_hash, h1, h2]

/-- Witness for C4 at the empty-input, empty-key invocation with outlen 5. -/
theorem valid_call_returns_outlen_bytes_witness :
    (1 ≤ 5 ∧ (5 : Nat) ≤ 32 ∧ ([] : List Nat).length ≤ 32) ∧
    ((∀ i, (laneDigest ⟨[], [], 5, [], [], [], []⟩ i).length = 32) ∧
     (rootAbsorbed ⟨[], [], 5, [], [], [], []⟩).updates
        = (List.range 8).map (laneDigest ⟨[], [], 5, [], [], [], []⟩) ∧
     blake2sp_hash ⟨[], [], 5, [], [], [], []⟩
        = some (blake2s_final (rootAbsorbed ⟨[], [], 5, [], [], [], []⟩) 5) ∧
     (blake2s_final (rootAbsorbed ⟨[], [], 5, [], [], [], []⟩) 5).length = 5) :=
  ⟨⟨by decide, by decide, by decide⟩,
    valid_call_returns_outlen_bytes ⟨[], [], 5, [], [], [], []⟩
      (by decide) (by decide) (by decide)⟩

/-- C5: in every keyed valid invocation every one of the leaf states absorbs
exactly one full 64-byte block, the key bytes left-justified and
zero-padded, before absorbing any input bytes, identically in every lane;
the root parameter block records the key length but the root state absorbs
only the 8 lane digests of 32 bytes each, never a key block. -/
theorem keyed_leaves_absorb_key_block_first (a : HashArgs)
    (hk1 : 0 < a.key.length) (hk2 : a.key.length ≤ 32) :
    (∀ i, (leafAbsorbed a i).updates
        = (a.key ++ List.replicate (64 - a.key.length) 0) :: laneAbsorb a.input i) ∧
    (a.key ++ List.replicate (64 - a.key.length) 0).length = 64 ∧
    (rootInit a).param.key_length = a.key.length ∧
    (rootAbsorbed a).updates = (List.range 8).map (laneDigest a) ∧
    (∀ u ∈ (rootAbsorbed a).updates, u.length = 32) := by
  have hkb : key_block_loaded a.key
      = a.key ++ List.replicate (64 - a.key.length) 0 := by
    rw [key_block_loaded, drop_replicate_zero]
  refine ⟨fun i => ?_, ?_, ?_, rootAbsorbed_updates a, ?_⟩
  · rw [leafAbsorbed_updates, if_pos hk1, hkb, List.singleton_append]
  · simp
    omega
  · simp [rootInit, blake2sp_init_root, blake2s_init_param]
    omega
  · rw [rootAbsorbed_updates]
    intro u hu
    simp only [List.mem_map] at hu
    obtain ⟨i, _, rfl⟩ := hu
    exact blake2s_final_length _ _

/-- Witness for C5 at key = [1, 2] over empty input. -/
theorem keyed_leaves_absorb_key_block_first_witness :
    (0 < ([1, 2] : List Nat).length ∧ ([1, 2] : List Nat).length ≤ 32) ∧
    ((∀ i, (leafAbsorbed ⟨[], [1, 2], 32, [], [], [], []⟩ i).updates
        = (([1, 2] : List Nat) ++ List.replicate (64 - ([1, 2] : List Nat).length) 0)
            :: laneAbsorb [] i) ∧
     (([1, 2] : List Nat) ++ List.replicate (64 - ([1, 2] : List Nat).length) 0).length = 64 ∧
     (rootInit ⟨[], [1, 2], 32, [], [], [], []⟩).param.key_length
        = ([1, 2] : List Nat).length ∧
     (rootAbsorbed ⟨[], [1, 2], 32, [], [], [], []⟩).updates
        = (List.range 8).map (laneDigest ⟨[], [1, 2], 32, [], [], [], []⟩) ∧
     (∀ u ∈ (rootAbsorbed ⟨[], [1, 2], 32, [], [], [], []⟩).updates, u.length = 32)) :=
  ⟨⟨by decide, by decide⟩,
    keyed_leaves_absorb_key_block_first ⟨[], [1, 2], 32, [], [], [], []⟩
      (by decide) (by decide)⟩

/-- C6, evaluation at a failing input: with a 4-byte salt [1, 2, 3, 4] whose
buffer is followed in memory by the bytes [9, 9, 9, 9], the fixed 8-byte
memcpy of the source makes the salt field of the leaf and root parameter
blocks end in those adjacent-memory bytes, not in the deterministic zeros
the claim requires. -/
theorem salt_short_copy_reads_adjacent_memory :
    (leafInit ⟨[], [], 32, [1, 2, 3, 4], [9, 9, 9, 9], [], []⟩ 0).param.salt
        = [1, 2, 3, 4, 9, 9, 9, 9] ∧
    (leafInit ⟨[], [], 32, [1, 2, 3, 4], [9, 9, 9, 9], [], []⟩ 0).param.salt
        ≠ [1, 2, 3, 4, 0, 0, 0, 0] ∧
    (rootInit ⟨[], [], 32, [1, 2, 3, 4], [9, 9, 9, 9], [], []⟩).param.salt
        ≠ [1, 2, 3, 4, 0, 0, 0, 0] := by
  decide

/-- C7: the call returns the configuration-error value exactly when
outlen = 0, outlen > 32, or the key length exceeds 32; in that case no
digest bytes are produced, and for all in-bounds values a digest is
returned. -/
theorem config_error_iff_out_of_bounds (a : HashArgs) :
    blake2sp_hash a = none
      ↔ (a.outlen = 0 ∨ 32 < a.outlen ∨ 32 < a.key.length) := by
  unfold blake2sp_hash
  split_ifs with h1 h2 <;> simp <;> omega

/-- C8: in every keyed invocation the 64-byte key block buffer is
overwritten with zeros by the secure_zero_memory call right after all 8
lanes have absorbed it, so its final contents are all-zero and independent
of the key; the single use of the buffer is the one key-block update each
lane performs. -/
theorem key_buffer_zeroed_after_use (key : List Nat)
    (h1 : 0 < key.length) (h2 : key.length ≤ 32) :
    key_block_burned key = List.replicate 64 0 ∧
    ∀ a : HashArgs, a.key = key →
      ∀ i, (leafKeyed a i).updates = [key_block_loaded key] := by
  constructor
  · rw [key_block_burned, secure_zero_memory, key_block_loaded, drop_replicate_zero]
    congr 1
    simp
    omega
  · intro a ha i
    rw [leafKeyed_updates, ha, if_pos h1]

/-- Witness for C8 at key = [5]. -/
theorem key_buffer_zeroed_after_use_witness :
    (0 < ([5] : List Nat).length ∧ ([5] : List Nat).length ≤ 32) ∧
    (key_block_burned [5] = List.replicate 64 0 ∧
     ∀ a : HashArgs, a.key = [5] →
       ∀ i, (leafKeyed a i).updates = [key_block_loaded [5]]) :=
  ⟨⟨by decide, by decide⟩, key_buffer_zeroed_after_use [5] (by decide) (by decide)⟩

/-- C9: within one invocation the 9 parameter blocks are pairwise distinct:
two leaf blocks with different lane indices differ exactly in the
node_offset field, and every leaf block differs from the root block in the
node_depth field (0 versus 1). -/
theorem param_blocks_pairwise_distinct (a : HashArgs) (i j : Nat)
    (hi : i < 8) (hj : j < 8) (hij : i ≠ j) :
    (leafInit a i).param ≠ (leafInit a j).param ∧
    { (leafInit a i).param with node_offset := (leafInit a j).param.node_offset }
        = (leafInit a j).param ∧
    (leafInit a i).param.node_depth = 0 ∧
    (rootInit a).param.node_depth = 1 ∧
    (leafInit a i).param ≠ (rootInit a).param := by
  refine ⟨?_, ?_, ?_, ?_, ?_⟩
  · intro h
    have h2 := congrArg blake2s_param.node_offset h
    simp only [leafInit, blake2sp_init_leaf, blake2s_init_param, store48] at h2
    rw [Nat.mod_eq_of_lt (lt_of_lt_of_le hi (by norm_num)),
      Nat.mod_eq_of_lt (lt_of_lt_of_le hj (by norm_num))] at h2
    exact hij h2
  · simp [leafInit, blake2sp_init_leaf, blake2s_init_param]
  · simp [leafInit, blake2sp_init_leaf, blake2s_init_param]
  · simp [rootInit, blake2sp_init_root, blake2s_init_param]
  · intro h
    have h2 := congrArg blake2s_param.node_depth h
    simp only [leafInit, rootInit, blake2sp_init_leaf, blake2sp_init_root,
      blake2s_init_param] at h2
    exact absurd h2 (by decide)

/-- Witness for C9 at lanes 0 and 1 of the empty invocation. -/
theorem param_blocks_pairwise_distinct_witness :
    (0 < 8 ∧ 1 < 8 ∧ 0 ≠ 1) ∧
    ((leafInit ⟨[], [], 32, [], [], [], []⟩ 0).param
        ≠ (leafInit ⟨[], [], 32, [], [], [], []⟩ 1).param ∧
     { (leafInit ⟨[], [], 32, [], [], [], []⟩ 0).param with
         node_offset := (leafInit ⟨[], [], 32, [], [], [], []⟩ 1).param.node_offset }
        = (leafInit ⟨[], [], 32, [], [], [], []⟩ 1).param ∧
     (leafInit ⟨[], [], 32, [], [], [], []⟩ 0).param.node_depth = 0 ∧
     (rootInit ⟨[], [], 32, [], [], [], []⟩).param.node_depth = 1 ∧
     (leafInit ⟨[], [], 32, [], [], [], []⟩ 0).param
        ≠ (rootInit ⟨[], [], 32, [], [], [], []⟩).param) :=
  ⟨⟨by decide, by decide, by decide⟩,
    param_blocks_pairwise_distinct ⟨[], [], 32, [], [], [], []⟩ 0 1
      (by decide) (by decide) (by decide)⟩

/-- C10: in every unkeyed invocation no key block is absorbed into any lane
at all, not even an all-zero block: each leaf state absorbs exactly its
partitioned input updates. -/
theorem unkeyed_leaves_absorb_only_input (a : HashArgs)
    (hk : a.key.length = 0) :
    ∀ i, (leafAbsorbed a i).updates = laneAbsorb a.input i := by
  intro i
  rw [leafAbsorbed_updates, if_neg (by omega), List.nil_append]

/-- Witness for C10 at input = [1, 2, 3] with an empty key. -/
theorem unkeyed_leaves_absorb_only_input_witness :
    ([] : List Nat).length = 0 ∧
    ∀ i, (leafAbsorbed ⟨[1, 2, 3], [], 32, [], [], [], []⟩ i).updates
        = laneAbsorb [1, 2, 3] i :=
  ⟨by decide, unkeyed_leaves_absorb_only_input ⟨[1, 2, 3], [], 32, [], [], [], []⟩
    (by decide)⟩
